import Mathlib

/-!
Verification of the container session and file-synchronization core of the
claude-code-sandbox web server (`src/web-server.ts`, `src/git/shadow-repository.ts`).

Bytes are modelled as `Nat`, byte buffers as `List Nat`, and the event-driven
handlers of the Node.js code as explicit state-transition functions.  Handler
code that runs synchronously between two `await` points is modelled as one
atomic step; `await` boundaries are modelled by splitting an operation into
several steps that an interleaving may separate.
-/

/-- Chunk of bytes, as delivered by the container stream (`Buffer` in the source). -/
abbrev Chunk := List Nat

/-- History byte cap from the stream data handler (`totalSize > 100000`). -/
def HISTORY_CAP : Nat := 100000

/-- Header strip heuristic of the stream `data` handler in `web-server.ts`:
if the chunk is longer than 8 bytes and its first byte is in 1..3, the 8-byte
Docker framing header is stripped (`chunk.slice(8)`); otherwise the chunk is
passed through unmodified. -/
def dataToSend (chunk : Chunk) : Chunk :=
  if chunk.length > 8 then
    if 1 ≤ chunk.headI ∧ chunk.headI ≤ 3 then chunk.drop 8 else chunk
  else chunk

/-- Total buffered bytes of an output history
(`outputHistory.reduce((sum, buf) => sum + buf.length, 0)`). -/
def totalSize (hist : List Chunk) : Nat := (hist.map List.length).sum

/-- The eviction loop of the stream `data` handler:
`while (totalSize > 100000 && outputHistory.length > 1) outputHistory.shift()`.
The source computes `totalSize` once, as a `const`, before the loop, so the
first conjunct of the loop condition never changes inside the loop; `ts` is
that constant. -/
def evictLoop (ts : Nat) : List Chunk → List Chunk
  | [] => []
  | [c] => [c]
  | c :: c' :: rest =>
    if ts > HISTORY_CAP then evictLoop ts (c' :: rest) else c :: c' :: rest

/-- One history append of the stream `data` handler: push the chunk, compute
the total size once, then run the eviction loop on that constant total. -/
def pushChunk (hist : List Chunk) (c : Chunk) : List Chunk :=
  evictLoop (totalSize (hist ++ [c])) (hist ++ [c])

/-- Modelled from the spec: eviction as the spec describes it — "drop oldest
first, one chunk at a time, until under cap", recomputing the buffered total
at every step.  Used only to contrast with `evictLoop`, which the source
actually implements. -/
def specEvict : List Chunk → List Chunk
  | [] => []
  | c :: rest =>
    if totalSize (c :: rest) > HISTORY_CAP then specEvict rest else c :: rest

/-- Modelled from the spec: appending a chunk followed by spec-described eviction. -/
def specPush (hist : List Chunk) (c : Chunk) : List Chunk :=
  specEvict (hist ++ [c])

theorem evictLoop_of_not_gt (ts : Nat) (l : List Chunk) (h : ¬ ts > HISTORY_CAP) :
    evictLoop ts l = l := by
  match l with
  | [] => rfl
  | [c] => rfl
  | c :: c' :: rest => simp [evictLoop, h]

theorem evictLoop_ne_nil (ts : Nat) : ∀ l : List Chunk, l ≠ [] → evictLoop ts l ≠ []
  | [c], _ => by simp [evictLoop]
  | c :: c' :: rest, _ => by
    rw [evictLoop]
    split
    · exact evictLoop_ne_nil ts (c' :: rest) (by simp)
    · simp

theorem evictLoop_getLast? (ts : Nat) : ∀ l : List Chunk, (evictLoop ts l).getLast? = l.getLast?
  | [] => rfl
  | [c] => rfl
  | c :: c' :: rest => by
    rw [evictLoop]
    split
    · rw [evictLoop_getLast? ts (c' :: rest)]
      simp [List.getLast?_cons_cons]
    · rfl

theorem getLast?_length_le_totalSize (c : Chunk) :
    ∀ l : List Chunk, l.getLast? = some c → c.length ≤ totalSize l := by
  intro l
  induction l with
  | nil => intro h; simp at h
  | cons a t ih =>
    intro h
    match t, h with
    | [], h => simp at h; simp [totalSize, h]
    | b :: t', h =>
      have := ih (by simpa [List.getLast?_cons_cons] using h)
      simp only [totalSize, List.map_cons, List.sum_cons] at this ⊢
      omega

/-- Claim C9: the 8-byte framing header is stripped exactly when the chunk is
longer than 8 bytes and its first byte lies in the range 1..3; in every other
case the chunk is passed through unmodified, so an ambiguous chunk is never
truncated. -/
theorem header_strip_exact (chunk : Chunk) :
    (8 < chunk.length ∧ 1 ≤ chunk.headI ∧ chunk.headI ≤ 3 →
      dataToSend chunk = chunk.drop 8) ∧
    (¬ (8 < chunk.length ∧ 1 ≤ chunk.headI ∧ chunk.headI ≤ 3) →
      dataToSend chunk = chunk) := by
  unfold dataToSend
  by_cases h1 : chunk.length > 8 <;> by_cases h2 : 1 ≤ chunk.headI ∧ chunk.headI ≤ 3 <;>
    simp [h1, h2]

/-- Witness for `header_strip_exact` at a concrete framed chunk. -/
theorem header_strip_exact_witness :
    dataToSend [2, 0, 0, 0, 0, 0, 0, 4, 104, 105] = [104, 105] :=
  (header_strip_exact [2, 0, 0, 0, 0, 0, 0, 4, 104, 105]).1 (by decide)

/-- Claim C2, evaluated at the failing input: with a buffered history of a
50000-byte and a 40000-byte chunk, appending a 30000-byte chunk makes the
total 120000 > 100000, and the source's eviction loop — whose `totalSize`
is a `const` computed once before the loop — then evicts every chunk but the
newest, retaining only the 30000-byte chunk.  The spec-described eviction
("drop oldest first ... until under cap", `specPush`) would stop after
dropping the 50000-byte chunk, retaining the 40000- and 30000-byte chunks. -/
theorem history_eviction_overshoot :
    pushChunk [List.replicate 50000 0, List.replicate 40000 0] (List.replicate 30000 0)
      = [List.replicate 30000 0] ∧
    specPush [List.replicate 50000 0, List.replicate 40000 0] (List.replicate 30000 0)
      = [List.replicate 40000 0, List.replicate 30000 0] := by
  have h120 : totalSize [List.replicate 50000 (0:Nat), List.replicate 40000 0,
      List.replicate 30000 0] = 120000 := by
    simp only [totalSize, List.map_cons, List.map_nil, List.length_replicate,
      List.sum_cons, List.sum_nil]
    norm_num
  have h70 : totalSize [List.replicate 40000 (0:Nat), List.replicate 30000 0] = 70000 := by
    simp only [totalSize, List.map_cons, List.map_nil, List.length_replicate,
      List.sum_cons, List.sum_nil]
    norm_num
  constructor
  · show evictLoop (totalSize [List.replicate 50000 (0:Nat), List.replicate 40000 0,
        List.replicate 30000 0]) [List.replicate 50000 0, List.replicate 40000 0,
        List.replicate 30000 0] = _
    rw [h120]
    rw [evictLoop, if_pos (by norm_num [HISTORY_CAP])]
    rw [evictLoop, if_pos (by norm_num [HISTORY_CAP])]
    rfl
  · show specEvict [List.replicate 50000 (0:Nat), List.replicate 40000 0,
        List.replicate 30000 0] = _
    rw [specEvict, h120, if_pos (by norm_num [HISTORY_CAP])]
    rw [specEvict, h70, if_neg (by norm_num [HISTORY_CAP])]

/-- Claim C10: after every append, at least one chunk remains in the history
and the most recently appended chunk is its last element; when that chunk by
itself exceeds the byte cap it is still retained, so the buffered total then
exceeds the cap. -/
theorem eviction_never_empties (hist : List Chunk) (c : Chunk) :
    pushChunk hist c ≠ [] ∧ (pushChunk hist c).getLast? = some c ∧
    (c.length > HISTORY_CAP → totalSize (pushChunk hist c) > HISTORY_CAP) := by
  have hne : pushChunk hist c ≠ [] := evictLoop_ne_nil _ (hist ++ [c]) (by simp)
  have hlast : (pushChunk hist c).getLast? = some c := by
    rw [pushChunk, evictLoop_getLast?]
    simp
  refine ⟨hne, hlast, fun hbig => ?_⟩
  have := getLast?_length_le_totalSize c (pushChunk hist c) hlast
  omega

/-- Witness for `eviction_never_empties`: a single 100001-byte chunk appended
to an empty history is retained even though it alone exceeds the cap. -/
theorem eviction_never_empties_witness :
    pushChunk [] (List.replicate 100001 0) ≠ [] ∧
    (pushChunk [] (List.replicate 100001 0)).getLast? = some (List.replicate 100001 0) ∧
    totalSize (pushChunk [] (List.replicate 100001 0)) > HISTORY_CAP := by
  have h := eviction_never_empties [] (List.replicate 100001 0)
  exact ⟨h.1, h.2.1, h.2.2 (by rw [List.length_replicate]; norm_num [HISTORY_CAP])⟩

theorem totalSize_append (a b : List Chunk) : totalSize (a ++ b) = totalSize a + totalSize b := by
  simp [totalSize]

theorem pushChunk_no_evict (hist : List Chunk) (c : Chunk)
    (h : totalSize (hist ++ [c]) ≤ HISTORY_CAP) : pushChunk hist c = hist ++ [c] :=
  evictLoop_of_not_gt _ _ (by omega)

/-- State of one session's stream multiplexer: the bounded output history,
the connected viewer sockets (`connectedSockets`), and, per socket, the
sequence of `output` payloads it has been sent. -/
structure MuxState where
  history : List Chunk
  viewers : List Nat
  received : Nat → List Chunk

/-- The clear-screen sequence `"\x1b[2J\x1b[H"` the attach handler emits
before replaying history to a reconnecting socket. -/
def clearChunk : Chunk := [27, 91, 50, 74, 27, 91, 72]

/-- The stream `data` handler: strip the header heuristically, and if the
result is non-empty, append it to the history (with eviction) and broadcast
it to every currently connected socket. -/
def muxData (raw : Chunk) (s : MuxState) : MuxState :=
  let d := dataToSend raw
  if d.length > 0 then
    { history := pushChunk s.history d
      viewers := s.viewers
      received := fun v => if v ∈ s.viewers then s.received v ++ [d] else s.received v }
  else s

/-- The `attach` handler's existing-session branch: add the socket to the
viewer set, then (when the history is non-empty) emit the clear-screen
sequence followed by every buffered chunk, in order, to that socket alone.
This whole branch is synchronous in the source (no `await` between the
check of `sessions.get` and the end of the replay loop), so it is one
atomic step. -/
def muxAttach (v : Nat) (s : MuxState) : MuxState :=
  { history := s.history
    viewers := if v ∈ s.viewers then s.viewers else s.viewers ++ [v]
    received := fun v' =>
      if v' = v then
        s.received v' ++ (if s.history ≠ [] then clearChunk :: s.history else [])
      else s.received v' }

inductive MuxEvent
  | data (raw : Chunk)
  | attach (v : Nat)

def muxStep (s : MuxState) : MuxEvent → MuxState
  | .data raw => muxData raw s
  | .attach v => muxAttach v s

def muxRun (es : List MuxEvent) (s : MuxState) : MuxState := es.foldl muxStep s

/-- Fresh session created on first attach: empty history, the creating socket
as the sole viewer, no replay. -/
def muxInit (v0 : Nat) : MuxState :=
  { history := [], viewers := [v0], received := fun _ => [] }

/-- The chunks actually broadcast for a list of raw stream chunks: each one
header-stripped, empty results skipped. -/
def broadcastOf (rs : List Chunk) : List Chunk :=
  (rs.map dataToSend).filter (fun c => c.length > 0)

theorem muxRun_data_viewers (rs : List Chunk) (s : MuxState) :
    (muxRun (rs.map .data) s).viewers = s.viewers := by
  induction rs generalizing s with
  | nil => rfl
  | cons r t ih =>
    show (muxRun (t.map .data) (muxData r s)).viewers = s.viewers
    rw [ih]
    by_cases hd : (dataToSend r).length > 0 <;> simp [muxData, hd]

theorem muxRun_data_received (rs : List Chunk) (s : MuxState) (v : Nat) :
    (muxRun (rs.map .data) s).received v
      = s.received v ++ (if v ∈ s.viewers then broadcastOf rs else []) := by
  induction rs generalizing s with
  | nil => simp [muxRun, broadcastOf]
  | cons r t ih =>
    show (muxRun (t.map .data) (muxData r s)).received v = _
    rw [ih]
    unfold muxData
    by_cases hd : (dataToSend r).length > 0
    · simp only [hd, if_pos, broadcastOf, List.map_cons, List.filter_cons]
      by_cases hv : v ∈ s.viewers <;>
        simp [hv, hd, broadcastOf, List.append_assoc]
    · simp only [hd, if_neg, ite_false, broadcastOf, List.map_cons, List.filter_cons]
      by_cases hv : v ∈ s.viewers <;> simp [hv, hd, broadcastOf]

theorem muxRun_data_history (rs : List Chunk) (s : MuxState)
    (h : totalSize (s.history ++ broadcastOf rs) ≤ HISTORY_CAP) :
    (muxRun (rs.map .data) s).history = s.history ++ broadcastOf rs := by
  induction rs generalizing s with
  | nil => simp [muxRun, broadcastOf]
  | cons r t ih =>
    show (muxRun (t.map .data) (muxData r s)).history = _
    by_cases hd : (dataToSend r).length > 0
    · have hbr : broadcastOf (r :: t) = dataToSend r :: broadcastOf t := by
        simp [broadcastOf, List.filter_cons, hd]
      rw [hbr] at h ⊢
      have hle : totalSize (s.history ++ [dataToSend r]) ≤ HISTORY_CAP := by
        rw [totalSize_append] at h ⊢
        simp only [totalSize, List.map_cons, List.map_nil, List.sum_cons, List.sum_nil] at h ⊢
        omega
      have hmux : (muxData r s).history = s.history ++ [dataToSend r] := by
        unfold muxData
        simp only [hd, if_pos]
        exact pushChunk_no_evict _ _ hle
      have hview : (muxData r s).history = s.history ++ [dataToSend r] := hmux
      rw [ih (muxData r s) (by rw [hmux, List.append_assoc]; simpa using h), hmux,
        List.append_assoc]
      rfl
    · have hbr : broadcastOf (r :: t) = broadcastOf t := by
        simp [broadcastOf, List.filter_cons, hd]
      have hmux : muxData r s = s := by unfold muxData; simp [hd]
      rw [hbr] at h ⊢
      rw [hmux, ih s h]

/-- Claim C4, refuted at a concrete trace: after one broadcast chunk, a viewer
attaching to the existing session does not receive exactly that chunk — the
attach handler first emits the synthetic clear-screen sequence
`"\x1b[2J\x1b[H"`, so the first `output` payload the late joiner receives is
`clearChunk`, which is not among the broadcast chunks. -/
theorem replay_preamble_counterexample :
    (muxRun [.data [5, 6, 7], .attach 1] (muxInit 0)).received 1
      = [clearChunk, [5, 6, 7]] ∧ clearChunk ≠ [5, 6, 7] := by
  constructor
  · rfl
  · decide

/-- Claim C4 as amended: a viewer attaching after K chunks have been broadcast
(with their total size within the history cap) receives the fixed clear-screen
preamble followed by exactly those K chunks, in their original order, before
receiving any new live chunk; every later live chunk is appended after them. -/
theorem replay_completeness (rs post : List Chunk) (v0 v1 : Nat) (hv : v1 ≠ v0)
    (hK : broadcastOf rs ≠ [])
    (hcap : totalSize (broadcastOf rs) ≤ HISTORY_CAP) :
    (muxRun (rs.map .data ++ [.attach v1] ++ post.map .data) (muxInit v0)).received v1
      = clearChunk :: broadcastOf rs ++ broadcastOf post := by
  have hsplit : muxRun (rs.map .data ++ [.attach v1] ++ post.map .data) (muxInit v0)
      = muxRun (post.map .data) (muxAttach v1 (muxRun (rs.map .data) (muxInit v0))) := by
    simp [muxRun, List.foldl_append, muxStep]
  set s1 := muxRun (rs.map .data) (muxInit v0) with hs1
  have hviewers : s1.viewers = [v0] := muxRun_data_viewers rs (muxInit v0)
  have hhist : s1.history = broadcastOf rs := by
    have := muxRun_data_history rs (muxInit v0) (by simpa [muxInit] using hcap)
    simpa [muxInit] using this
  have hrecv1 : s1.received v1 = [] := by
    have := muxRun_data_received rs (muxInit v0) v1
    simpa [muxInit, hv] using this
  have hrecv2 : (muxAttach v1 s1).received v1 = clearChunk :: broadcastOf rs := by
    simp [muxAttach, hrecv1, hhist, hK]
  have hview2 : v1 ∈ (muxAttach v1 s1).viewers := by
    simp [muxAttach, hviewers, hv]
  rw [hsplit, muxRun_data_received post (muxAttach v1 s1) v1, hrecv2, if_pos hview2]

/-- Witness for `replay_completeness`: one broadcast chunk, one late joiner,
one live chunk after the attach. -/
theorem replay_completeness_witness :
    (muxRun ([[1, 2, 3]].map MuxEvent.data ++ [MuxEvent.attach 5] ++ [[9]].map MuxEvent.data)
        (muxInit 0)).received 5
      = clearChunk :: broadcastOf [[1, 2, 3]] ++ broadcastOf [[9]] :=
  replay_completeness [[1, 2, 3]] [[9]] 0 5 (by decide) (by decide) (by decide)

/-- Phase of one in-flight `attach` handler invocation.  The handler reads
`sessions.get(containerId)` synchronously, but when no session is found it
`await`s `container.exec(...)` and `exec.start(...)` before registering the
new session with `sessions.set` — so check and registration are separate
atomic steps that another handler invocation can interleave. -/
inductive AttachPhase
  | start
  | checkedAbsent
  | done
deriving DecidableEq

/-- Registry state for one container: the registered session (exec/stream
pair id together with its `connectedSockets`), and every exec/stream pair
created so far.  The attach path never destroys a pair, so each created pair
stays live. -/
structure RegState where
  session : Option (Nat × List Nat)
  pairs : List Nat
deriving DecidableEq

def regInit : RegState := { session := none, pairs := [] }

/-- One micro-step of the `attach` handler for socket `v`.
`start`: the synchronous prefix — `sessions.get`; if a session exists the
existing-session branch (add socket, replay) completes synchronously.
`checkedAbsent`: the continuation after the `await`s — the exec/stream pair
exists now, and `sessions.set` registers a session holding only `v`,
overwriting whatever is registered. -/
def attachStep (st : RegState) (v : Nat) : AttachPhase → RegState × AttachPhase
  | .start =>
    match st.session with
    | none => (st, .checkedAbsent)
    | some (pid, vs) => ({ st with session := some (pid, vs ++ [v]) }, .done)
  | .checkedAbsent =>
    let pid := st.pairs.length + 1
    ({ session := some (pid, [v]), pairs := st.pairs ++ [pid] }, .done)
  | .done => (st, .done)

/-- A fully serialized attach: both micro-steps of one handler invocation run
before anything else. -/
def attachSerial (st : RegState) (v : Nat) : RegState :=
  (attachStep (attachStep st v .start).1 v (attachStep st v .start).2).1

/-- The racing interleaving: both handlers pass the `sessions.get` check
before either registers. -/
def attachRace (v1 v2 : Nat) : RegState :=
  let a := attachStep regInit v1 .start
  let b := attachStep a.1 v2 .start
  let c := attachStep b.1 v1 a.2
  (attachStep c.1 v2 b.2).1

/-- Claim C1, refuted at a concrete interleaving: two concurrent `attach`
requests for the same container that both pass the `sessions.get` check
before either `await`ed exec creation finishes each create an exec/stream
pair — two pairs (ids 1 and 2) exist for the container, and the registered
session holds only the second socket, not both. -/
theorem attach_race_two_pairs :
    (attachRace 100 200).pairs = [1, 2] ∧
    (attachRace 100 200).session = some (2, [200]) := by
  exact ⟨rfl, rfl⟩

theorem foldl_attachSerial_found (rest : List Nat) (pid : Nat) (ps : List Nat) :
    ∀ acc : List Nat, rest.foldl attachSerial { session := some (pid, acc), pairs := ps }
      = { session := some (pid, acc ++ rest), pairs := ps } := by
  induction rest with
  | nil => intro acc; simp
  | cons r t ih =>
    intro acc
    have hstep : attachSerial { session := some (pid, acc), pairs := ps } r
        = { session := some (pid, acc ++ [r]), pairs := ps } := rfl
    show t.foldl attachSerial (attachSerial { session := some (pid, acc), pairs := ps } r) = _
    rw [hstep, ih (acc ++ [r])]
    simp

/-- Claim C1 as amended: serialized attach requests keep the single-session
invariant — N attaches for the same container, each completing before the
next begins, create exactly one exec/stream pair (id 1) and register all N
sockets, in order, against that single session.  The invariant fails only for
attaches that interleave at the `await` points (see `attach_race_two_pairs`). -/
theorem attach_single_session_serialized (vs : List Nat) (h : vs ≠ []) :
    (vs.foldl attachSerial regInit).pairs = [1] ∧
    (vs.foldl attachSerial regInit).session = some (1, vs) := by
  match vs, h with
  | v :: rest, _ =>
    have hfirst : attachSerial regInit v = { session := some (1, [v]), pairs := [1] } := rfl
    show (rest.foldl attachSerial (attachSerial regInit v)).pairs = [1] ∧
      (rest.foldl attachSerial (attachSerial regInit v)).session = some (1, v :: rest)
    rw [hfirst, foldl_attachSerial_found rest 1 [1] [v]]
    simp

/-- Witness for `attach_single_session_serialized`: three serialized attaches. -/
theorem attach_single_session_serialized_witness :
    ([7, 8, 9].foldl attachSerial regInit).pairs = [1] ∧
    ([7, 8, 9].foldl attachSerial regInit).session = some (1, [7, 8, 9]) :=
  attach_single_session_serialized [7, 8, 9] (by decide)

/-- Event emitted on the viewer-facing protocol by one `performSync` pass. -/
inductive SyncEvent
  | syncComplete
  | syncError
deriving DecidableEq

/-- How one `performSync` body ends once it has started: the sync and change
detection succeeded (`sync-complete` emitted), the shadow `.git` directory was
missing (the code logs to the server console and returns early, emitting
nothing), or some step threw (`sync-error` emitted from the catch block). -/
inductive SyncOutcome
  | ok
  | missingGit
  | threw
deriving DecidableEq

/-- Per-container sync scheduler state: the `syncInProgress` membership for
this container, the number of sync bodies actually started, and the events
emitted to the container's sockets. -/
structure SyncState where
  inProgress : Bool
  started : Nat
  events : List SyncEvent
deriving DecidableEq

def syncInit : SyncState := { inProgress := false, started := 0, events := [] }

/-- The synchronous head of `performSync`: `if (syncInProgress.has(id)) return;
syncInProgress.add(id)`.  Check and insert run with no `await` between them,
so this is one atomic step; a trigger arriving while a sync is in flight is
dropped with no event and no new sync. -/
def syncTrigger (s : SyncState) : SyncState :=
  if s.inProgress then s
  else { s with inProgress := true, started := s.started + 1 }

/-- The viewer-protocol events of one sync body, by outcome. -/
def eventsOf : SyncOutcome → List SyncEvent
  | .ok => [.syncComplete]
  | .missingGit => []
  | .threw => [.syncError]

/-- The tail of `performSync`: emit the outcome's event (from the try block,
the early `return`, or the catch block), then the `finally` block deletes the
container from `syncInProgress` unconditionally. -/
def syncFinish (o : SyncOutcome) (s : SyncState) : SyncState :=
  { s with events := s.events ++ eventsOf o, inProgress := false }

/-- Claim C3: a trigger arriving while a sync is in progress is dropped —
state unchanged, no event, no new sync; a trigger on an idle container marks
it syncing and starts exactly one sync; the marker is removed at sync end for
every outcome, success and failure alike, so a failed sync never leaves the
container marked as syncing; and the two-triggers-during-one-sync trace
executes exactly one sync whose only events are the first sync's own. -/
theorem sync_single_flight (s : SyncState) (o : SyncOutcome) :
    (s.inProgress = true → syncTrigger s = s) ∧
    (s.inProgress = false →
      (syncTrigger s).inProgress = true ∧ (syncTrigger s).started = s.started + 1) ∧
    (syncFinish o s).inProgress = false ∧
    (syncFinish o (syncTrigger (syncTrigger syncInit))).started = 1 ∧
    (syncFinish o (syncTrigger (syncTrigger syncInit))).events = eventsOf o := by
  refine ⟨fun h => by simp [syncTrigger, h], fun h => by simp [syncTrigger, h], rfl, ?_, ?_⟩
  · show (syncFinish o (syncTrigger { inProgress := true, started := 1, events := [] })).started = 1
    rfl
  · show (syncFinish o (syncTrigger { inProgress := true, started := 1, events := [] })).events
      = eventsOf o
    rfl

/-- Witness for `sync_single_flight` at a concrete in-progress state and a
failing outcome. -/
theorem sync_single_flight_witness :
    (syncTrigger { inProgress := true, started := 1, events := [] }
      = { inProgress := true, started := 1, events := [] }) ∧
    (syncFinish .threw { inProgress := true, started := 1, events := [] }).inProgress = false :=
  have h := sync_single_flight { inProgress := true, started := 1, events := [] } .threw
  ⟨h.1 rfl, h.2.2.1⟩

/-- Result of one `getChanges` pass. -/
structure ChangeSet where
  hasChanges : Bool
  summary : String
deriving DecidableEq

/-- ASCII whitespace test for `strTrim`. -/
def isWs (c : Char) : Bool := c == ' ' || c == '\n' || c == '\t' || c == '\r'

/-- JavaScript `String.prototype.trim` (restricted to the ASCII whitespace
that can occur in `git status --porcelain` output): strip leading and
trailing whitespace. -/
def strTrim (s : String) : String :=
  ⟨((s.data.dropWhile isWs).reverse.dropWhile isWs).reverse⟩

/-- `ShadowRepository.getChanges`, as a function of the `git status
--porcelain` output: a blank status yields `hasChanges: false`; otherwise the
summary counts lines for modified (`" M"`), added/untracked (`"??"`) and
deleted (`" D"`) paths. -/
def getChanges (status : String) : ChangeSet :=
  if strTrim status = "" then { hasChanges := false, summary := "No changes detected" }
  else
    let lines := (strTrim status).splitOn "\n"
    let modified := (lines.filter (fun l => l.startsWith " M")).length
    let added := (lines.filter (fun l => l.startsWith "??")).length
    let deleted := (lines.filter (fun l => l.startsWith " D")).length
    { hasChanges := true
      summary := "Modified: " ++ toString modified ++ ", Added: " ++ toString added
        ++ ", Deleted: " ++ toString deleted }

/-- Claim C8, refuted on the missing-`.git` path: when the shadow `.git`
directory is missing, `performSync` logs to the server console and returns —
the viewer-facing protocol receives no event at all (neither `sync-complete`
nor `sync-error`), so the condition is silently dropped at the protocol
boundary rather than reported as a named event. -/
theorem missing_git_silently_dropped :
    eventsOf SyncOutcome.missingGit = [] ∧
    (syncFinish .missingGit (syncTrigger syncInit)).events = [] ∧
    SyncEvent.syncComplete ∉ eventsOf SyncOutcome.missingGit := by
  refine ⟨rfl, rfl, by decide⟩

/-- Claim C8 as amended: `getChanges` on a clean working tree (blank porcelain
status) returns `hasChanges = false`; a sync pass that throws emits the named
`sync-error` event and a successful pass emits `sync-complete`; but a missing
shadow `.git` directory is neither treated as "no changes" nor reported — the
sync is skipped with only a server-side log, emitting no event, though the
in-progress marker is still released. -/
theorem clean_tree_and_missing_git (status : String) (h : strTrim status = "") :
    (getChanges status).hasChanges = false ∧
    eventsOf .threw = [.syncError] ∧ eventsOf .ok = [.syncComplete] ∧
    eventsOf .missingGit = [] ∧
    (syncFinish .missingGit (syncTrigger syncInit)).inProgress = false := by
  refine ⟨?_, rfl, rfl, rfl, rfl⟩
  simp [getChanges, h]

/-- Witness for `clean_tree_and_missing_git` at the empty status string. -/
theorem clean_tree_and_missing_git_witness :
    (getChanges "").hasChanges = false ∧
    eventsOf .threw = [.syncError] ∧ eventsOf .ok = [.syncComplete] ∧
    eventsOf .missingGit = [] ∧
    (syncFinish .missingGit (syncTrigger syncInit)).inProgress = false :=
  clean_tree_and_missing_git "" (by decide)

/-- Where the shadow repository's `.git` directory currently is: in place at
the shadow path, moved aside to the `.git-backup` path, or gone. -/
inductive GitLoc
  | atShadow
  | atBackup
  | absent
deriving DecidableEq

/-- Abstract state of the shadow working tree: untouched since the last sync,
left with only part of the container's files copied, or fully post-sync. -/
inductive TreeState
  | pre
  | midCopy
  | post
deriving DecidableEq

structure ShadowFS where
  gitLoc : GitLoc
  tree : TreeState
deriving DecidableEq

/-- First variant of `ShadowRepository.syncWithDockerCp` (git backup/restore,
no try/finally): move `.git` from the shadow path to the backup path, run
`docker cp` straight into the shadow path, fix ownership (failures swallowed),
then move `.git` back.  `cpFails` is the outcome of the `docker cp` shell-out;
when it throws, the exception propagates at once (`Except.error`) with the
tree possibly partially copied and the `.git` restore never reached. -/
def syncWithDockerCpV1 (cpFails : Bool) (fs : ShadowFS) : Except ShadowFS ShadowFS :=
  let fs1 := if fs.gitLoc = .atShadow then { fs with gitLoc := .atBackup } else fs
  if cpFails then .error { fs1 with tree := .midCopy }
  else
    let fs2 := { fs1 with tree := .post }
    if fs2.gitLoc = .atBackup then .ok { fs2 with gitLoc := .atShadow } else .ok fs2

/-- Second variant of `ShadowRepository.syncWithDockerCp` (temp staging):
`docker cp` the container tree into a host temp directory, then merge it into
the shadow path excluding `.git` and the build directories (rsync, with a
manual-copy fallback); a `finally` removes the temp directory.  The shadow
`.git` is never moved or removed.  `cpFails` is the outcome of the copy into
temp (shadow path untouched on failure); `mergeFails` the outcome of the
merge into the shadow path (tree possibly partially merged on failure). -/
def syncWithDockerCpV2 (cpFails mergeFails : Bool) (fs : ShadowFS) : Except ShadowFS ShadowFS :=
  if cpFails then .error fs
  else if mergeFails then .error { fs with tree := .midCopy }
  else .ok { fs with tree := .post }

/-- The shadow filesystem state a sync run leaves behind, whether it returned
or threw. -/
def resultFS : Except ShadowFS ShadowFS → ShadowFS
  | .ok f => f
  | .error f => f

/-- Claim C5, refuted on the backup/restore variant of `syncWithDockerCp`:
starting from an intact shadow repository, a `docker cp` failure aborts the
sync after `.git` has been moved to the backup path and before it is
restored — the shadow path is left with files partially copied and its
`.git` directory displaced, exactly the state the claim rules out. -/
theorem sync_failure_displaces_git :
    syncWithDockerCpV1 true { gitLoc := .atShadow, tree := .pre }
      = .error { gitLoc := .atBackup, tree := .midCopy } ∧
    GitLoc.atBackup ≠ GitLoc.atShadow ∧
    TreeState.midCopy ≠ TreeState.pre ∧ TreeState.midCopy ≠ TreeState.post := by
  refine ⟨rfl, by decide, by decide, by decide⟩

/-- Claim C5 as amended: the temp-staging variant of `syncWithDockerCp` never
moves or deletes the shadow `.git` — every outcome, success or failure, leaves
`.git` exactly where it was, and a failure of the copy into the temp directory
leaves the whole shadow state untouched; the backup/restore variant does not
have this property (see `sync_failure_displaces_git`), and neither variant
guarantees the working tree itself is exactly pre-sync or fully post-sync
when the merge step fails partway. -/
theorem temp_staging_preserves_git (c m : Bool) (fs : ShadowFS) :
    (resultFS (syncWithDockerCpV2 c m fs)).gitLoc = fs.gitLoc ∧
    (c = true → syncWithDockerCpV2 c m fs = .error fs) := by
  cases c <;> cases m <;> simp [syncWithDockerCpV2, resultFS]

/-- Witness for `temp_staging_preserves_git`: failing copy on an intact
repository. -/
theorem temp_staging_preserves_git_witness :
    (resultFS (syncWithDockerCpV2 true false { gitLoc := .atShadow, tree := .pre })).gitLoc
      = GitLoc.atShadow ∧
    syncWithDockerCpV2 true false { gitLoc := .atShadow, tree := .pre }
      = .error { gitLoc := .atShadow, tree := .pre } :=
  have h := temp_staging_preserves_git true false { gitLoc := .atShadow, tree := .pre }
  ⟨h.1, h.2 rfl⟩

/-- One observable action of `WebUIServer.stop`, in execution order. -/
inductive StopAct
  | cleanupShadow (id : Nat)
  | endStream (id : Nat)
  | clearTimer (id : Nat)
  | ioClose
  | httpClose
deriving DecidableEq

/-- The server state `stop` acts on: shadow repository directories currently
on disk, per-session streams with their writable flag, the keys of the
`sessions` map, and the containers with an active monitoring interval
(`monitoringIntervals`). -/
structure ServerState where
  shadowDirs : List Nat
  streams : List (Nat × Bool)
  sessions : List Nat
  timers : List Nat
deriving DecidableEq

/-- `WebUIServer.stop`, in source order: `cleanup()` every shadow repository
(removing its directory from disk), then `stream.end()` every session's
stream and clear the `sessions` map, then close the socket server and the
HTTP server.  `monitoringIntervals` is never touched by `stop` — no
`clearInterval` runs, so the timers survive.  The second component is the
ordered trace of actions performed. -/
def serverStop (s : ServerState) : ServerState × List StopAct :=
  ({ shadowDirs := []
     streams := s.streams.map (fun p => (p.1, false))
     sessions := []
     timers := s.timers },
   s.shadowDirs.map StopAct.cleanupShadow
     ++ s.streams.map (fun p => StopAct.endStream p.1)
     ++ [StopAct.ioClose, StopAct.httpClose])

/-- Claim C6, refuted at a concrete state: stopping a server with one session,
one shadow repository and one active monitoring timer leaves the timer
registered — it will fire again — and the action trace deletes the shadow
repository before terminating the stream, with no `clearTimer` action at all;
the claim requires streams first, then timers, then shadow repositories, and
that no timer fires afterwards. -/
theorem stop_leaves_timer_running :
    (serverStop ⟨[1], [(1, true)], [1], [1]⟩).1.timers = [1] ∧
    (serverStop ⟨[1], [(1, true)], [1], [1]⟩).2
      = [StopAct.cleanupShadow 1, StopAct.endStream 1, StopAct.ioClose, StopAct.httpClose] ∧
    StopAct.clearTimer 1 ∉ (serverStop ⟨[1], [(1, true)], [1], [1]⟩).2 := by
  refine ⟨rfl, rfl, by decide⟩

/-- Claim C6 as amended: a full stop deletes every shadow repository
directory, then ends every session stream (none remains writable) and clears
the session registry, then closes the socket and HTTP servers — in that
order — but it never clears the per-container monitoring timers, which remain
exactly as they were and may fire again. -/
theorem stop_behavior (s : ServerState) :
    (serverStop s).1.shadowDirs = [] ∧
    (serverStop s).1.streams = s.streams.map (fun p => (p.1, false)) ∧
    ((serverStop s).1.streams).all (fun p => !p.2) = true ∧
    (serverStop s).1.sessions = [] ∧
    (serverStop s).1.timers = s.timers ∧
    (serverStop s).2 = s.shadowDirs.map StopAct.cleanupShadow
      ++ s.streams.map (fun p => StopAct.endStream p.1)
      ++ [StopAct.ioClose, StopAct.httpClose] := by
  refine ⟨rfl, rfl, ?_, rfl, rfl, rfl⟩
  show (s.streams.map (fun p => (p.1, false))).all (fun p => !p.2) = true
  simp

/-- Events the commit-changes socket handler can emit. -/
inductive CommitResult
  | success
  | errorEvent (msg : String)
deriving DecidableEq

/-- A git command the commit-changes handler runs against the shadow path. -/
inductive GitAct
  | gitAdd
  | gitCommit (msg : String)
deriving DecidableEq

/-- The part of the shadow repository the commit handler can mutate: whether
changes are staged, and how many commits exist. -/
structure RepoState where
  staged : Bool
  commits : Nat
deriving DecidableEq

/-- The `commit-changes` socket handler: if no shadow repository is registered
for the container, throw `Shadow repository not found` (caught and emitted as
`commit-error`, nothing run, no retry).  Otherwise run `git add .` — staging
everything — and then `git commit -m <msg>`; git rejects an empty message
(`commitOk` is the oracle for git's other failure modes, e.g. nothing to
commit), and a failure is emitted as `commit-error` without retry, leaving
the staging in place. -/
def commitChangesHandler (shadowExists commitOk : Bool) (msg : String)
    (st : RepoState) : RepoState × List GitAct × CommitResult :=
  if shadowExists then
    let st1 : RepoState := { st with staged := true }
    if msg ≠ "" ∧ commitOk = true then
      ({ staged := false, commits := st1.commits + 1 }, [.gitAdd, .gitCommit msg], .success)
    else
      (st1, [.gitAdd, .gitCommit msg], .errorEvent "commit failed")
  else
    (st, [], .errorEvent "Shadow repository not found")

/-- Claim C7, refuted on the empty-message path: the handler has no message
check — with an existing shadow repository and an empty message it runs
`git add .` first, staging all changes, and only then does `git commit` fail.
The request is rejected, but the shadow repository has been mutated: `staged`
flips from `false` to `true`, contradicting "rejected without mutating the
shadow repository (no staging ... occurs)". -/
theorem empty_message_commit_stages :
    commitChangesHandler true true "" { staged := false, commits := 0 }
      = ({ staged := true, commits := 0 }, [.gitAdd, .gitCommit ""],
          .errorEvent "commit failed") := by
  decide

/-- Claim C7 as amended: a commit request for a container with no shadow
repository fails with the `Shadow repository not found` error surfaced to the
caller, with no git command run and no retry; a commit request with an empty
message is rejected by git and surfaced as `commit-error` without retry, but
only after `git add .` has staged all changes — the staging mutation is not
rolled back, and no commit is created. -/
theorem commit_contract (ok : Bool) (msg : String) (st : RepoState) :
    (commitChangesHandler false ok msg st
      = (st, [], .errorEvent "Shadow repository not found")) ∧
    (msg = "" →
      commitChangesHandler true ok msg st
        = ({ st with staged := true }, [.gitAdd, .gitCommit msg],
            .errorEvent "commit failed")) := by
  constructor
  · rfl
  · intro h
    subst h
    simp [commitChangesHandler]

/-- Witness for `commit_contract`: empty message against a repository with
nothing yet staged and no commits. -/
theorem commit_contract_witness :
    (commitChangesHandler false true "fix" { staged := false, commits := 0 }
      = ({ staged := false, commits := 0 }, [], .errorEvent "Shadow repository not found")) ∧
    (commitChangesHandler true true "" { staged := false, commits := 0 }
      = ({ staged := true, commits := 0 }, [.gitAdd, .gitCommit ""],
          .errorEvent "commit failed")) :=
  have h1 := commit_contract true "fix" { staged := false, commits := 0 }
  have h2 := commit_contract true "" { staged := false, commits := 0 }
  ⟨h1.1, h2.2 rfl⟩
